import Mathlib

/-!
A verification development for the sample-sheet ("manifest") construction
logic of the nf-core/rnaseq tutorial notebook.  The notebook iterates over a
registry listing of package identifiers, keeps those containing the batch
string, derives a sample name from the package's CellLine metadata and the
identifier with the batch-name prefix removed, classifies member files by the
substrings "_1.fastq.gz" / "_2.fastq.gz" into forward / reverse read lists,
assembles a pandas DataFrame with a constant "auto" strandedness column, and
writes it as CSV with a header row and no index column.
-/

/-- Tests whether `pat` occurs at the start of the char list (second argument). -/
def prefAt : List Char → List Char → Bool
  | [], _ => true
  | _ :: _, [] => false
  | c :: cs, d :: ds => c == d && prefAt cs ds

/-- Tests whether `pat` occurs anywhere in the char list, Python's `pat in hay`. -/
def containsSub (pat : List Char) : List Char → Bool
  | [] => pat.isEmpty
  | c :: cs => prefAt pat (c :: cs) || containsSub pat cs

/-- Python's substring test `pat in hay` on strings. -/
def strContains (hay pat : String) : Bool := containsSub pat.data hay.data

/-- Fuel-indexed scan replacing each non-overlapping occurrence of `pat` by `rep`,
left to right, as Python's `str.replace` does for a non-empty pattern.  Fuel
`n = s.length` always suffices because every step consumes at least one
character of the input.  (The notebook's pattern is the batch name followed by
an underscore, never empty, so the empty-pattern case is irrelevant here.) -/
def repAux (pat rep : List Char) : Nat → List Char → List Char
  | _, [] => []
  | 0, s => s
  | n + 1, c :: cs =>
    if prefAt pat (c :: cs) && !pat.isEmpty then
      rep ++ repAux pat rep n (List.drop pat.length (c :: cs))
    else
      c :: repAux pat rep n cs

/-- Python's `s.replace(pat, rep)` for a non-empty pattern. -/
def strReplace (s pat rep : String) : String :=
  String.mk (repAux pat.data rep.data s.data.length s.data)

/-- A raw-data package as the loop sees it: its catalog identifier, the
CellLine entry of its metadata, and its member file names. -/
structure Pkg where
  name : String
  cellLine : String
  files : List String
deriving DecidableEq

/-- One manifest row, i.e. one line of the sample sheet DataFrame. -/
structure Row where
  sample : String
  fastq_1 : String
  fastq_2 : String
  strandedness : String
deriving DecidableEq

/-- The identifier with every occurrence of `batch ++ "_"` removed:
`p.replace("ccle/20190225_PRJNA523380_", "")` in the notebook, where the
literal prefix is the batch name followed by an underscore. -/
def stripId (batch p : String) : String := strReplace p (batch ++ "_") ""

/-- The derived sample name: `pkg.meta["CellLine"] + "__" + p.replace(prefix, "")`. -/
def sampleName (batch : String) (p : Pkg) : String :=
  p.cellLine ++ "__" ++ stripId batch p.name

/-- A fastq location: `registry + "/" + batch + "_" + p.replace(prefix, "") + "/" + file`. -/
def fastqLoc (registry batch pname file : String) : String :=
  registry ++ "/" ++ batch ++ "_" ++ stripId batch pname ++ "/" ++ file

/-- Locations contributed to the `fastq1` list by one package: one entry per
member file containing "_1.fastq.gz", in member order. -/
def fastq1OfPkg (registry batch : String) (p : Pkg) : List String :=
  (p.files.filter (fun f => strContains f "_1.fastq.gz")).map (fastqLoc registry batch p.name)

/-- Locations contributed to the `fastq2` list by one package: one entry per
member file containing "_2.fastq.gz", in member order. -/
def fastq2OfPkg (registry batch : String) (p : Pkg) : List String :=
  (p.files.filter (fun f => strContains f "_2.fastq.gz")).map (fastqLoc registry batch p.name)

/-- The packages the loop processes: those whose identifier contains the batch
string, `if batch in p`, in listing order. -/
def matchingPkgs (batch : String) (pkgs : List Pkg) : List Pkg :=
  pkgs.filter (fun p => strContains p.name batch)

/-- The accumulated `samples` list after the loop. -/
def samplesList (batch : String) (pkgs : List Pkg) : List String :=
  (matchingPkgs batch pkgs).map (sampleName batch)

/-- The accumulated `fastq1` list after the loop. -/
def fastq1List (registry batch : String) (pkgs : List Pkg) : List String :=
  (matchingPkgs batch pkgs).flatMap (fastq1OfPkg registry batch)

/-- The accumulated `fastq2` list after the loop. -/
def fastq2List (registry batch : String) (pkgs : List Pkg) : List String :=
  (matchingPkgs batch pkgs).flatMap (fastq2OfPkg registry batch)

/-- Zipping the three columns into rows, with the constant "auto" strandedness
column inserted at the end, as `pd.DataFrame` + `insert` do for equal-length
columns. -/
def zip3Rows : List String → List String → List String → List Row
  | s :: ss, a :: la, b :: lb => ⟨s, a, b, "auto"⟩ :: zip3Rows ss la lb
  | _, _, _ => []

/-- The sample-sheet construction: `pd.DataFrame({"sample": samples, "fastq_1":
fastq1, "fastq_2": fastq2})` raises ValueError when the lists have unequal
lengths (modelled as `none`); otherwise the columns are zipped into rows and
the "strandedness" column is appended with constant value "auto". -/
def mkManifest (registry batch : String) (pkgs : List Pkg) : Option (List Row) :=
  let s := samplesList batch pkgs
  let f1 := fastq1List registry batch pkgs
  let f2 := fastq2List registry batch pkgs
  if s.length = f1.length ∧ s.length = f2.length then some (zip3Rows s f1 f2) else none

/-- A character the csv module's minimal quoting must protect: the delimiter,
the quote character, or a line-terminator character. -/
def isSpecial (c : Char) : Bool := c == ',' || c == '"' || c == '\n' || c == '\r'

/-- Doubling of embedded quote characters inside a quoted field. -/
def escQ : List Char → List Char
  | [] => []
  | c :: cs => if c == '"' then '"' :: '"' :: escQ cs else c :: escQ cs

/-- Minimal quoting of one field, as pandas `to_csv` (csv.QUOTE_MINIMAL) does:
a field containing a delimiter, quote, or line terminator is wrapped in quotes
with embedded quotes doubled; any other field is written verbatim. -/
def escField (f : List Char) : List Char :=
  if f.any isSpecial then '"' :: (escQ f ++ ['"']) else f

/-- Interleaving a separator character between chunks. -/
def joinSep (sep : Char) : List (List Char) → List Char
  | [] => []
  | [x] => x
  | x :: y :: rest => x ++ sep :: joinSep sep (y :: rest)

/-- One serialized record: the escaped fields joined by commas. -/
def recChars (fields : List (List Char)) : List Char :=
  joinSep ',' (fields.map escField)

/-- The serialized file body: every line, header and data rows alike,
terminated by a newline. -/
def linesChars : List (List Char) → List Char
  | [] => []
  | l :: rest => l ++ '\n' :: linesChars rest

/-- The header record of the sample sheet, in DataFrame column order. -/
def headerFields : List (List Char) := ["sample".data, "fastq_1".data, "fastq_2".data, "strandedness".data]

/-- The four fields of one data row, in column order; no index column because
the notebook passes `index=False`. -/
def rowFieldsChars (r : Row) : List (List Char) :=
  [r.sample.data, r.fastq_1.data, r.fastq_2.data, r.strandedness.data]

/-- `sample_sheet.to_csv(..., index=False)`: the header record followed by one
record per row, comma-delimited with minimal quoting, newline-terminated lines,
no index column. -/
def writeCsv (m : List Row) : String :=
  String.mk (linesChars ((headerFields :: m.map rowFieldsChars).map recChars))

/-- Quote-parity update while scanning one character. -/
def qflip (b : Bool) (c : Char) : Bool := if c == '"' then !b else b

/-- Quote parity after scanning a chunk from parity `b`. -/
def qstate (b : Bool) (l : List Char) : Bool := l.foldl qflip b

/-- Prepending a character onto the first chunk of a split result. -/
def consHead (c : Char) : List (List Char) → List (List Char)
  | [] => [[c]]
  | l :: ls => (c :: l) :: ls

/-- Splitting on a separator character, ignoring separators that occur inside
a quoted region (odd quote parity): the chunk structure a CSV reader sees. -/
def splitQ (sep : Char) : Bool → List Char → List (List Char)
  | _, [] => [[]]
  | b, c :: cs =>
    if c == sep && !b then [] :: splitQ sep false cs
    else consHead c (splitQ sep (qflip b c) cs)

/-- A chunk a quote-aware split keeps whole: scanning it from parity `b`
never hits the separator at even quote parity. -/
def okChunk (sep : Char) : Bool → List Char → Bool
  | _, [] => true
  | b, c :: cs => !(c == sep && !b) && okChunk sep (qflip b c) cs

/-- Undoing quote doubling and dropping the closing quote of a quoted field body. -/
def unq : List Char → List Char
  | [] => []
  | [c] => if c == '"' then [] else [c]
  | c :: d :: cs => if c == '"' && d == '"' then '"' :: unq cs else c :: unq (d :: cs)

/-- Undoing the minimal quoting of one raw field. -/
def unescField (f : List Char) : List Char :=
  match f with
  | [] => []
  | c :: cs => if c == '"' then unq cs else c :: cs

/-- Parsing one serialized record back into its fields. -/
def parseRecChars (l : List Char) : List (List Char) :=
  (splitQ ',' false l).map unescField

/-- Dropping the empty chunk a trailing line terminator leaves behind, as CSV
readers ignore the final newline. -/
def dropLastEmpty (ls : List (List Char)) : List (List Char) :=
  if ls.getLast? = some [] then ls.dropLast else ls

/-- Parsing a CSV body into its records, each a list of field strings. -/
def parseCsv (cs : List Char) : List (List (List Char)) :=
  (dropLastEmpty (splitQ '\n' false cs)).map parseRecChars

/-- The records of a serialized file, as strings: each line split at unquoted
commas into unescaped fields. -/
def recordsOf (s : String) : List (List String) :=
  (parseCsv s.data).map (fun r => r.map String.mk)

/-- Rebuilding a manifest row from a parsed record; a record without exactly
the four expected fields is rejected. -/
def rowOfFields : List (List Char) → Option Row
  | [s, a, b, d] => some ⟨String.mk s, String.mk a, String.mk b, String.mk d⟩
  | _ => none

/-- Rebuilding all data rows, failing if any record is malformed. -/
def optRows : List (List (List Char)) → Option (List Row)
  | [] => some []
  | r :: rs =>
    match rowOfFields r, optRows rs with
    | some row, some rows => some (row :: rows)
    | _, _ => none

/-- Re-reading a serialized sample sheet: the first record is the column list,
the remaining records are the data rows. -/
def parseManifest (s : String) : Option (List String × List Row) :=
  match parseCsv s.data with
  | [] => none
  | hd :: recs =>
    match optRows recs with
    | some rows => some (hd.map String.mk, rows)
    | none => none

/-- A registry state: the packages stored under their identifiers. -/
structure PkgData where
  cellLine : String
  files : List String
deriving DecidableEq

/-- The association of identifiers to stored package data. -/
abbrev Registry := List (String × PkgData)

/-- The registry operations the notebook can issue: `quilt3.Package.browse`
reads an entry, `Package.push` persists a new versioned entry. -/
inductive RegOp where
  | browse (name : String)
  | push (name : String) (d : PkgData) (msg : String)
deriving DecidableEq

/-- The effect of one registry operation on the registry state: a browse
leaves it untouched, a push persists a new entry. -/
def applyOp (st : Registry) : RegOp → Registry
  | RegOp.browse _ => st
  | RegOp.push n d _ => (n, d) :: st

/-- The trace of registry operations the sample-sheet loop issues: one browse
per identifier containing the batch string, in listing order, and nothing else. -/
def buildOps (batch : String) (ids : List String) : List RegOp :=
  (ids.filter (fun p => strContains p batch)).map RegOp.browse

/-- Reading the matching packages out of the registry state, in listing order;
a missing identifier is a registry access failure. -/
def browseAll (st : Registry) : List String → Option (List Pkg)
  | [] => some []
  | n :: ns =>
    match List.lookup n st, browseAll st ns with
    | some d, some ps => some (⟨n, d.cellLine, d.files⟩ :: ps)
    | _, _ => none

/-- The whole build as a function of the registry state and the listing: browse
every matching identifier, then assemble the manifest. -/
def buildFromRegistry (registry batch : String) (st : Registry) (ids : List String) :
    Option (List Row) :=
  match browseAll st (ids.filter (fun p => strContains p batch)) with
  | some ps => mkManifest registry batch ps
  | none => none

theorem qstate_nil (b : Bool) : qstate b [] = b := rfl

theorem qstate_cons (b : Bool) (c : Char) (l : List Char) :
    qstate b (c :: l) = qstate (qflip b c) l := rfl

theorem qstate_append (b : Bool) (x y : List Char) :
    qstate b (x ++ y) = qstate (qstate b x) y := List.foldl_append qflip b x y

theorem okChunk_append (sep : Char) (x : List Char) :
    ∀ b y, okChunk sep b (x ++ y) = (okChunk sep b x && okChunk sep (qstate b x) y) := by
  induction x with
  | nil => intro b y; simp [okChunk, qstate]
  | cons c cs ih =>
    intro b y
    simp [okChunk, qstate_cons, ih (qflip b c) y, Bool.and_assoc]

theorem splitQ_sep (sep : Char) (a : List Char) :
    ∀ b rest, okChunk sep b a = true → qstate b a = false →
      splitQ sep b (a ++ sep :: rest) = a :: splitQ sep false rest := by
  induction a with
  | nil =>
    intro b rest _ hq
    rw [qstate_nil] at hq
    subst hq
    simp [splitQ]
  | cons c cs ih =>
    intro b rest hok hq
    rw [okChunk, Bool.and_eq_true, Bool.not_eq_true'] at hok
    rw [qstate_cons] at hq
    rw [List.cons_append, splitQ, hok.1, if_neg (by simp), ih (qflip b c) rest hok.2 hq]
    rfl

theorem splitQ_last (sep : Char) (a : List Char) :
    ∀ b, okChunk sep b a = true → splitQ sep b a = [a] := by
  induction a with
  | nil => intro b _; rfl
  | cons c cs ih =>
    intro b hok
    rw [okChunk, Bool.and_eq_true, Bool.not_eq_true'] at hok
    rw [splitQ, hok.1, if_neg (by simp), ih (qflip b c) hok.2]
    rfl

theorem noSpecial_ok (sep : Char) (hs : isSpecial sep = true) (f : List Char) :
    ∀ b, (f.any isSpecial = false) → okChunk sep b f = true ∧ qstate b f = b := by
  induction f with
  | nil => intro b _; exact ⟨rfl, rfl⟩
  | cons c cs ih =>
    intro b hf
    rw [List.any_cons, Bool.or_eq_false_iff] at hf
    have hcs : (c == sep) = false := by
      rcases Bool.eq_false_iff.1 hf.1 with h
      apply Bool.eq_false_iff.2
      intro hc
      exact h (by rw [beq_iff_eq.1 hc]; exact hs)
    have hcq : (c == '"') = false := by
      apply Bool.eq_false_iff.2
      intro hc
      have : isSpecial c = true := by
        rw [beq_iff_eq.1 hc]; rfl
      exact Bool.eq_false_iff.1 hf.1 this
    have hflip : qflip b c = b := by rw [qflip, hcq]; rfl
    refine ⟨?_, ?_⟩
    · rw [okChunk, hcs, hflip, Bool.false_and, Bool.not_false, Bool.true_and]
      exact (ih b hf.2).1
    · rw [qstate_cons, hflip]
      exact (ih b hf.2).2

theorem escQ_ok (sep : Char) (hq : (sep == '"') = false) (f : List Char) :
    okChunk sep true (escQ f ++ ['"']) = true ∧ qstate true (escQ f ++ ['"']) = false := by
  have hqs : ('"' == sep) = false := by
    apply Bool.eq_false_iff.2
    intro hc
    rw [beq_iff_eq.1 hc] at hq
    simp at hq
  induction f with
  | nil =>
    constructor
    · rw [escQ, List.nil_append, okChunk, hqs, Bool.false_and, Bool.not_false, Bool.true_and]
      rfl
    · rfl
  | cons c cs ih =>
    by_cases hc : c = '"'
    · subst hc
      rw [escQ, if_pos (by decide)]
      refine ⟨?_, ?_⟩
      · simp only [List.cons_append, okChunk, qflip, hqs]
        simpa using ih.1
      · simp only [List.cons_append, qstate_cons, qflip]
        simpa using ih.2
    · rw [escQ, if_neg (by simp [hc])]
      have hflip : qflip true c = true := by rw [qflip, if_neg (by simp [hc])]
      refine ⟨?_, ?_⟩
      · simp only [List.cons_append, okChunk, hflip]
        simpa using ih.1
      · simp only [List.cons_append, qstate_cons, hflip]
        exact ih.2

theorem escField_ok (sep : Char) (hs : isSpecial sep = true) (hq : (sep == '"') = false)
    (f : List Char) :
    okChunk sep false (escField f) = true ∧ qstate false (escField f) = false := by
  by_cases ha : f.any isSpecial
  · rw [escField, if_pos ha]
    have hqs : ('"' == sep) = false := by
      apply Bool.eq_false_iff.2
      intro hc
      rw [beq_iff_eq.1 hc] at hq
      simp at hq
    have h := escQ_ok sep hq f
    refine ⟨?_, ?_⟩
    · rw [okChunk, hqs, Bool.false_and, Bool.not_false, Bool.true_and]
      have : qflip false '"' = true := rfl
      rw [this]
      exact h.1
    · rw [qstate_cons]
      have : qflip false '"' = true := rfl
      rw [this]
      exact h.2
  · rw [escField, if_neg ha]
    exact noSpecial_ok sep hs f false (Bool.eq_false_iff.2 ha)

theorem joinSep_ok (sep big : Char) (hsb : (sep == big) = false) (hsq : (sep == '"') = false)
    (ls : List (List Char))
    (h : ∀ x ∈ ls, okChunk big false x = true ∧ qstate false x = false) :
    okChunk big false (joinSep sep ls) = true ∧ qstate false (joinSep sep ls) = false := by
  induction ls with
  | nil => exact ⟨rfl, rfl⟩
  | cons x tail ih =>
    cases tail with
    | nil =>
      rw [joinSep]
      exact h x (List.mem_cons_self x [])
    | cons y rest =>
      have hx := h x (List.mem_cons_self x (y :: rest))
      have htail := ih (fun z hz => h z (List.mem_cons_of_mem x hz))
      rw [joinSep]
      have hflip : qflip false sep = false := by rw [qflip, hsq]; rfl
      refine ⟨?_, ?_⟩
      · rw [okChunk_append, hx.1, Bool.true_and, hx.2, okChunk, hsb, Bool.false_and,
          Bool.not_false, Bool.true_and, hflip]
        exact htail.1
      · rw [qstate_append, hx.2, qstate_cons, hflip]
        exact htail.2

theorem splitQ_joinSep (sep : Char) (ls : List (List Char)) (hne : ls ≠ [])
    (h : ∀ x ∈ ls, okChunk sep false x = true ∧ qstate false x = false) :
    splitQ sep false (joinSep sep ls) = ls := by
  induction ls with
  | nil => exact absurd rfl hne
  | cons x tail ih =>
    cases tail with
    | nil =>
      rw [joinSep]
      exact splitQ_last sep x false (h x (List.mem_cons_self x [])).1
    | cons y rest =>
      have hx := h x (List.mem_cons_self x (y :: rest))
      rw [joinSep, splitQ_sep sep x false (joinSep sep (y :: rest)) hx.1 hx.2,
        ih (by simp) (fun z hz => h z (List.mem_cons_of_mem x hz))]

theorem splitQ_lines (ls : List (List Char))
    (h : ∀ x ∈ ls, okChunk '\n' false x = true ∧ qstate false x = false) :
    splitQ '\n' false (linesChars ls) = ls ++ [[]] := by
  induction ls with
  | nil => rfl
  | cons l rest ih =>
    have hl := h l (List.mem_cons_self l rest)
    rw [linesChars, splitQ_sep '\n' l false (linesChars rest) hl.1 hl.2,
      ih (fun z hz => h z (List.mem_cons_of_mem l hz)), List.cons_append]

theorem escQ_eq_nil (f : List Char) (h : escQ f = []) : f = [] := by
  cases f with
  | nil => rfl
  | cons c cs =>
    rw [escQ] at h
    by_cases hc : (c == '"') = true
    · rw [if_pos hc] at h
      exact absurd h (by simp)
    · rw [if_neg hc] at h
      exact absurd h (by simp)

theorem unq_escQ (f : List Char) : unq (escQ f ++ ['"']) = f := by
  induction f with
  | nil => rfl
  | cons c cs ih =>
    by_cases hc : c = '"'
    · subst hc
      rw [escQ, if_pos (by decide), List.cons_append, List.cons_append, unq,
        if_pos (by decide), ih]
    · rw [escQ, if_neg (by simp [hc])]
      cases hE : escQ cs with
      | nil =>
        have : cs = [] := escQ_eq_nil cs hE
        subst this
        rw [List.cons_append, List.nil_append, unq, if_neg (by simp [hc])]
        rfl
      | cons d ds =>
        rw [List.cons_append, List.cons_append, unq, if_neg (by simp [hc]),
          ← List.cons_append, ← hE, ih]

theorem unescField_escField (f : List Char) : unescField (escField f) = f := by
  by_cases ha : f.any isSpecial
  · rw [escField, if_pos ha, unescField, if_pos (by decide)]
    exact unq_escQ f
  · rw [escField, if_neg ha]
    cases f with
    | nil => rfl
    | cons c cs =>
      have hspec : isSpecial c = false := by
        have h2 := Bool.eq_false_iff.2 ha
        rw [List.any_cons, Bool.or_eq_false_iff] at h2
        exact h2.1
      have hc : (c == '"') = false := by
        apply Bool.eq_false_iff.2
        intro h
        rw [beq_iff_eq.1 h] at hspec
        exact absurd hspec (by decide)
      rw [unescField, if_neg (by simp [hc])]

theorem mapUnEsc (fs : List (List Char)) : (fs.map escField).map unescField = fs := by
  induction fs with
  | nil => rfl
  | cons x rest ih => rw [List.map_cons, List.map_cons, unescField_escField, ih]

theorem parseRecChars_recChars (fields : List (List Char)) (hne : fields ≠ []) :
    parseRecChars (recChars fields) = fields := by
  rw [parseRecChars, recChars,
    splitQ_joinSep ',' (fields.map escField) (by simpa using hne)
      (fun x hx => by
        rcases List.mem_map.1 hx with ⟨f, _, hf⟩
        rw [← hf]
        exact escField_ok ',' (by decide) (by decide) f),
    mapUnEsc]

theorem recChars_ok (fields : List (List Char)) :
    okChunk '\n' false (recChars fields) = true ∧ qstate false (recChars fields) = false := by
  rw [recChars]
  exact joinSep_ok ',' '\n' (by decide) (by decide) (fields.map escField)
    (fun x hx => by
      rcases List.mem_map.1 hx with ⟨f, _, hf⟩
      rw [← hf]
      exact escField_ok '\n' (by decide) (by decide) f)

theorem parseCsv_writeCsv (m : List Row) :
    parseCsv (writeCsv m).data = headerFields :: m.map rowFieldsChars := by
  have hdata : (writeCsv m).data = linesChars ((headerFields :: m.map rowFieldsChars).map recChars) := rfl
  rw [parseCsv, hdata,
    splitQ_lines ((headerFields :: m.map rowFieldsChars).map recChars)
      (fun x hx => by
        rcases List.mem_map.1 hx with ⟨fields, _, hf⟩
        rw [← hf]
        exact recChars_ok fields)]
  rw [dropLastEmpty, if_pos (by rw [List.getLast?_concat]), List.dropLast_concat]
  rw [List.map_map, List.map_cons]
  rw [Function.comp_apply, parseRecChars_recChars headerFields (by simp [headerFields])]
  have : ∀ rs : List Row, (rs.map rowFieldsChars).map (parseRecChars ∘ recChars) = rs.map rowFieldsChars := by
    intro rs
    induction rs with
    | nil => rfl
    | cons r rest ih =>
      rw [List.map_cons, List.map_cons, ih, Function.comp_apply,
        parseRecChars_recChars (rowFieldsChars r) (by simp [rowFieldsChars])]
  rw [this]

theorem optRows_map (m : List Row) : optRows (m.map rowFieldsChars) = some m := by
  induction m with
  | nil => rfl
  | cons r rest ih =>
    rw [List.map_cons, optRows]
    have h1 : rowOfFields (rowFieldsChars r) = some r := rfl
    rw [h1, ih]

theorem parseManifest_writeCsv_general (m : List Row) :
    parseManifest (writeCsv m) = some (["sample", "fastq_1", "fastq_2", "strandedness"], m) := by
  rw [parseManifest, parseCsv_writeCsv m]
  simp only [optRows_map m]
  rfl

-- manifest-level helpers

theorem zip3Rows_map_sample (s : List String) :
    ∀ f1 f2, s.length = f1.length → s.length = f2.length →
      (zip3Rows s f1 f2).map Row.sample = s := by
  induction s with
  | nil => intro f1 f2 _ _; rfl
  | cons x xs ih =>
    intro f1 f2 h1 h2
    cases f1 with
    | nil => exact absurd h1 (by simp)
    | cons a la =>
      cases f2 with
      | nil => exact absurd h2 (by simp)
      | cons b lb =>
        rw [zip3Rows, List.map_cons, ih la lb (by simpa using h1) (by simpa using h2)]

theorem zip3Rows_length (s : List String) :
    ∀ f1 f2, s.length = f1.length → s.length = f2.length →
      (zip3Rows s f1 f2).length = s.length := by
  induction s with
  | nil => intro f1 f2 _ _; rfl
  | cons x xs ih =>
    intro f1 f2 h1 h2
    cases f1 with
    | nil => exact absurd h1 (by simp)
    | cons a la =>
      cases f2 with
      | nil => exact absurd h2 (by simp)
      | cons b lb =>
        rw [zip3Rows, List.length_cons, List.length_cons,
          ih la lb (by simpa using h1) (by simpa using h2)]

theorem flatMap_len_one {α : Type} (f : α → List String) :
    ∀ l : List α, (∀ p ∈ l, (f p).length = 1) → (l.flatMap f).length = l.length := by
  intro l
  induction l with
  | nil => intro _; rfl
  | cons x xs ih =>
    intro h
    rw [List.flatMap_cons, List.length_append, h x (List.mem_cons_self x xs),
      ih (fun p hp => h p (List.mem_cons_of_mem x hp)), List.length_cons]
    omega

/-- Claim C1: for a processed package with exactly one forward and one reverse
matching filename, the manifest row equals the deterministic concatenation
formula: the sample is the CellLine metadata value, "__", and the identifier
stripped of the batch-name prefix; each location is registry address, "/",
batch name, "_", stripped identifier, "/", filename; strandedness is "auto". -/
theorem claim1_manifest_row_formula (registry batch : String) (p : Pkg) (f1 f2 : String)
    (hm : strContains p.name batch = true)
    (h1 : p.files.filter (fun f => strContains f "_1.fastq.gz") = [f1])
    (h2 : p.files.filter (fun f => strContains f "_2.fastq.gz") = [f2]) :
    mkManifest registry batch [p] =
      some [{ sample := p.cellLine ++ "__" ++ stripId batch p.name,
              fastq_1 := registry ++ "/" ++ batch ++ "_" ++ stripId batch p.name ++ "/" ++ f1,
              fastq_2 := registry ++ "/" ++ batch ++ "_" ++ stripId batch p.name ++ "/" ++ f2,
              strandedness := "auto" }] := by
  have hmp : matchingPkgs batch [p] = [p] := by simp [matchingPkgs, hm]
  have hs : samplesList batch [p] = [sampleName batch p] := by rw [samplesList, hmp]; rfl
  have hf1 : fastq1List registry batch [p] = [fastqLoc registry batch p.name f1] := by
    rw [fastq1List, hmp, List.flatMap_cons, List.flatMap_nil, List.append_nil, fastq1OfPkg, h1]
    rfl
  have hf2 : fastq2List registry batch [p] = [fastqLoc registry batch p.name f2] := by
    rw [fastq2List, hmp, List.flatMap_cons, List.flatMap_nil, List.append_nil, fastq2OfPkg, h2]
    rfl
  simp only [mkManifest, hs, hf1, hf2]
  rw [if_pos ⟨rfl, rfl⟩]
  rfl

/-- Claim C1 witness: the literal fixture registry "s3://bkt", batch "proj/b1",
identifier "proj/b1_s1", CellLine "HELA", members ["s1_1.fastq.gz",
"s1_2.fastq.gz"] yields exactly the expected row. -/
theorem claim1_fixture_witness :
    strContains "proj/b1_s1" "proj/b1" = true ∧
    mkManifest "s3://bkt" "proj/b1" [⟨"proj/b1_s1", "HELA", ["s1_1.fastq.gz", "s1_2.fastq.gz"]⟩] =
      some [⟨"HELA__s1", "s3://bkt/proj/b1_s1/s1_1.fastq.gz", "s3://bkt/proj/b1_s1/s1_2.fastq.gz", "auto"⟩] := by
  refine ⟨by decide, ?_⟩
  have h := claim1_manifest_row_formula "s3://bkt" "proj/b1"
    ⟨"proj/b1_s1", "HELA", ["s1_1.fastq.gz", "s1_2.fastq.gz"]⟩ "s1_1.fastq.gz" "s1_2.fastq.gz"
    (by decide) (by decide) (by decide)
  rw [h]
  decide

/-- Claim C2: packages whose identifier does not contain the batch filter
contribute no row (building from the listing equals building from its matching
sublist), and any produced manifest has one row per matching entry, in the
original listing order. -/
theorem claim2_batch_filter_and_order (registry batch : String) (pkgs : List Pkg) :
    mkManifest registry batch pkgs = mkManifest registry batch (matchingPkgs batch pkgs) ∧
    ∀ rows, mkManifest registry batch pkgs = some rows →
      rows.map Row.sample = (matchingPkgs batch pkgs).map (sampleName batch) ∧
      rows.length = (matchingPkgs batch pkgs).length := by
  have hMM : matchingPkgs batch (matchingPkgs batch pkgs) = matchingPkgs batch pkgs := by
    simp [matchingPkgs, List.filter_filter]
  constructor
  · simp only [mkManifest, samplesList, fastq1List, fastq2List, hMM]
  · intro rows h
    simp only [mkManifest] at h
    split_ifs at h with hc
    · have hr := Option.some.inj h
      subst hr
      constructor
      · have := zip3Rows_map_sample (samplesList batch pkgs)
          (fastq1List registry batch pkgs) (fastq2List registry batch pkgs) hc.1 hc.2
        rw [this, samplesList]
      · have := zip3Rows_length (samplesList batch pkgs)
          (fastq1List registry batch pkgs) (fastq2List registry batch pkgs) hc.1 hc.2
        rw [this, samplesList, List.length_map]

/-- Claim C2 witness: a listing of 3 identifiers of which exactly 2 contain the
batch filter, each with one forward and one reverse read, yields exactly 2 rows
in listing order. -/
theorem claim2_scenario_witness :
    List.map Row.sample
        [⟨"CL__x", "s3://r/b_x/x_1.fastq.gz", "s3://r/b_x/x_2.fastq.gz", "auto"⟩,
         ⟨"CL__y", "s3://r/b_y/y_1.fastq.gz", "s3://r/b_y/y_2.fastq.gz", "auto"⟩] =
      List.map (sampleName "b")
        (matchingPkgs "b" [⟨"b_x", "CL", ["x_1.fastq.gz", "x_2.fastq.gz"]⟩,
          ⟨"zzz", "CL", ["z_1.fastq.gz", "z_2.fastq.gz"]⟩,
          ⟨"b_y", "CL", ["y_1.fastq.gz", "y_2.fastq.gz"]⟩]) ∧
    ([⟨"CL__x", "s3://r/b_x/x_1.fastq.gz", "s3://r/b_x/x_2.fastq.gz", "auto"⟩,
      ⟨"CL__y", "s3://r/b_y/y_1.fastq.gz", "s3://r/b_y/y_2.fastq.gz", "auto"⟩] : List Row).length =
      (matchingPkgs "b" [⟨"b_x", "CL", ["x_1.fastq.gz", "x_2.fastq.gz"]⟩,
        ⟨"zzz", "CL", ["z_1.fastq.gz", "z_2.fastq.gz"]⟩,
        ⟨"b_y", "CL", ["y_1.fastq.gz", "y_2.fastq.gz"]⟩]).length :=
  (claim2_batch_filter_and_order "s3://r" "b"
      [⟨"b_x", "CL", ["x_1.fastq.gz", "x_2.fastq.gz"]⟩,
       ⟨"zzz", "CL", ["z_1.fastq.gz", "z_2.fastq.gz"]⟩,
       ⟨"b_y", "CL", ["y_1.fastq.gz", "y_2.fastq.gz"]⟩]).2
    [⟨"CL__x", "s3://r/b_x/x_1.fastq.gz", "s3://r/b_x/x_2.fastq.gz", "auto"⟩,
     ⟨"CL__y", "s3://r/b_y/y_1.fastq.gz", "s3://r/b_y/y_2.fastq.gz", "auto"⟩] (by decide)

/-- Claim C3 counterexample: a matching package with zero filenames containing
"_1.fastq.gz" or "_2.fastq.gz" makes the DataFrame construction fail on
unequal column lengths, so no manifest and in particular no row with an empty
location is produced, contrary to the claim. -/
theorem claim3_zero_reads_counterexample :
    mkManifest "s3://bkt" "proj/b1" [⟨"proj/b1_s1", "HELA", ["readme.txt"]⟩] = none := by decide

/-- Claim C3 amended: when one matching package has zero member filenames
containing "_1.fastq.gz" and every other matching package has exactly one,
manifest construction raises the unequal-length error: it produces no manifest
at all, rather than a row with an empty or missing location. -/
theorem claim3_zero_reads_amended (registry batch : String) (l1 l2 : List Pkg) (bad : Pkg)
    (hmb : strContains bad.name batch = true)
    (hb1 : bad.files.filter (fun f => strContains f "_1.fastq.gz") = [])
    (hok : ∀ q ∈ l1 ++ l2, strContains q.name batch = true →
        (q.files.filter (fun f => strContains f "_1.fastq.gz")).length = 1) :
    mkManifest registry batch (l1 ++ bad :: l2) = none := by
  have hM : matchingPkgs batch (l1 ++ bad :: l2) =
      matchingPkgs batch l1 ++ bad :: matchingPkgs batch l2 := by
    simp [matchingPkgs, List.filter_append, List.filter_cons, hmb]
  have e1 : ((matchingPkgs batch l1).flatMap (fastq1OfPkg registry batch)).length =
      (matchingPkgs batch l1).length := by
    apply flatMap_len_one
    intro q hq
    rcases List.mem_filter.1 hq with ⟨hql, hqm⟩
    rw [fastq1OfPkg, List.length_map]
    exact hok q (List.mem_append_left l2 hql) hqm
  have e2 : ((matchingPkgs batch l2).flatMap (fastq1OfPkg registry batch)).length =
      (matchingPkgs batch l2).length := by
    apply flatMap_len_one
    intro q hq
    rcases List.mem_filter.1 hq with ⟨hql, hqm⟩
    rw [fastq1OfPkg, List.length_map]
    exact hok q (List.mem_append_right l1 hql) hqm
  have e0 : (fastq1OfPkg registry batch bad).length = 0 := by
    rw [fastq1OfPkg, hb1]
    rfl
  have hlen1 : (fastq1List registry batch (l1 ++ bad :: l2)).length =
      (matchingPkgs batch l1).length + (matchingPkgs batch l2).length := by
    rw [fastq1List, hM, List.flatMap_append, List.flatMap_cons, List.length_append,
      List.length_append, e1, e0, e2]
    omega
  have hlens : (samplesList batch (l1 ++ bad :: l2)).length =
      (matchingPkgs batch l1).length + (matchingPkgs batch l2).length + 1 := by
    rw [samplesList, List.length_map, hM, List.length_append, List.length_cons]
    omega
  simp only [mkManifest]
  rw [if_neg]
  intro hcond
  have hc := hcond.1
  rw [hlens, hlen1] at hc
  omega

/-- Claim C3 amended witness: a listing with one well-formed matching package
and one matching package with no read files produces no manifest. -/
theorem claim3_amended_witness :
    strContains "proj/b1_s2" "proj/b1" = true ∧
    mkManifest "s3://bkt" "proj/b1"
      [⟨"proj/b1_s1", "HELA", ["s1_1.fastq.gz", "s1_2.fastq.gz"]⟩,
       ⟨"proj/b1_s2", "K562", ["notes.txt"]⟩] = none := by
  refine ⟨by decide, ?_⟩
  exact claim3_zero_reads_amended "s3://bkt" "proj/b1"
    [⟨"proj/b1_s1", "HELA", ["s1_1.fastq.gz", "s1_2.fastq.gz"]⟩] []
    ⟨"proj/b1_s2", "K562", ["notes.txt"]⟩ (by decide) (by decide)
    (by
      intro q hq hm
      have hq1 : q = ⟨"proj/b1_s1", "HELA", ["s1_1.fastq.gz", "s1_2.fastq.gz"]⟩ := by
        simpa using hq
      subst hq1
      decide)

/-- Claim C4: two matching packages whose derived sample ids coincide both keep
their rows: no deduplication or overwrite occurs, and the row count equals the
number of matching packages. -/
theorem claim4_duplicate_sample_ids_kept (registry batch : String) (p1 p2 : Pkg)
    (a1 b1 a2 b2 : String)
    (hm1 : strContains p1.name batch = true) (hm2 : strContains p2.name batch = true)
    (hs : sampleName batch p1 = sampleName batch p2)
    (h11 : p1.files.filter (fun f => strContains f "_1.fastq.gz") = [a1])
    (h21 : p1.files.filter (fun f => strContains f "_2.fastq.gz") = [b1])
    (h12 : p2.files.filter (fun f => strContains f "_1.fastq.gz") = [a2])
    (h22 : p2.files.filter (fun f => strContains f "_2.fastq.gz") = [b2]) :
    mkManifest registry batch [p1, p2] =
      some [⟨sampleName batch p1, fastqLoc registry batch p1.name a1,
             fastqLoc registry batch p1.name b1, "auto"⟩,
            ⟨sampleName batch p2, fastqLoc registry batch p2.name a2,
             fastqLoc registry batch p2.name b2, "auto"⟩] ∧
    ∀ rows, mkManifest registry batch [p1, p2] = some rows → rows.length = 2 := by
  have hmp : matchingPkgs batch [p1, p2] = [p1, p2] := by
    simp [matchingPkgs, hm1, hm2]
  have hsl : samplesList batch [p1, p2] = [sampleName batch p1, sampleName batch p2] := by
    rw [samplesList, hmp]
    rfl
  have hf1 : fastq1List registry batch [p1, p2] =
      [fastqLoc registry batch p1.name a1, fastqLoc registry batch p2.name a2] := by
    rw [fastq1List, hmp, List.flatMap_cons, List.flatMap_cons, List.flatMap_nil,
      List.append_nil, fastq1OfPkg, fastq1OfPkg, h11, h12]
    rfl
  have hf2 : fastq2List registry batch [p1, p2] =
      [fastqLoc registry batch p1.name b1, fastqLoc registry batch p2.name b2] := by
    rw [fastq2List, hmp, List.flatMap_cons, List.flatMap_cons, List.flatMap_nil,
      List.append_nil, fastq2OfPkg, fastq2OfPkg, h21, h22]
    rfl
  have hmain : mkManifest registry batch [p1, p2] =
      some [⟨sampleName batch p1, fastqLoc registry batch p1.name a1,
             fastqLoc registry batch p1.name b1, "auto"⟩,
            ⟨sampleName batch p2, fastqLoc registry batch p2.name a2,
             fastqLoc registry batch p2.name b2, "auto"⟩] := by
    simp only [mkManifest, hsl, hf1, hf2]
    rw [if_pos ⟨rfl, rfl⟩]
    rfl
  refine ⟨hmain, ?_⟩
  intro rows h
  rw [hmain] at h
  rw [← Option.some.inj h]
  rfl

/-- Claim C4 witness: identifiers "b_b_s1" and "b_s1" both strip to "s1" under
batch "b", so both rows carry the sample id "CL__s1" and both persist. -/
theorem claim4_duplicate_witness :
    sampleName "b" ⟨"b_b_s1", "CL", ["s1_1.fastq.gz", "s1_2.fastq.gz"]⟩ =
      sampleName "b" ⟨"b_s1", "CL", ["s1_1.fastq.gz", "s1_2.fastq.gz"]⟩ ∧
    mkManifest "s3://r" "b"
      [⟨"b_b_s1", "CL", ["s1_1.fastq.gz", "s1_2.fastq.gz"]⟩,
       ⟨"b_s1", "CL", ["s1_1.fastq.gz", "s1_2.fastq.gz"]⟩] =
      some [⟨"CL__s1", "s3://r/b_s1/s1_1.fastq.gz", "s3://r/b_s1/s1_2.fastq.gz", "auto"⟩,
            ⟨"CL__s1", "s3://r/b_s1/s1_1.fastq.gz", "s3://r/b_s1/s1_2.fastq.gz", "auto"⟩] := by
  refine ⟨by decide, ?_⟩
  have h := (claim4_duplicate_sample_ids_kept "s3://r" "b"
    ⟨"b_b_s1", "CL", ["s1_1.fastq.gz", "s1_2.fastq.gz"]⟩
    ⟨"b_s1", "CL", ["s1_1.fastq.gz", "s1_2.fastq.gz"]⟩
    "s1_1.fastq.gz" "s1_2.fastq.gz" "s1_1.fastq.gz" "s1_2.fastq.gz"
    (by decide) (by decide) (by decide) (by decide) (by decide) (by decide) (by decide)).1
  rw [h]
  decide

/-- Claim C5: the serialized manifest is comma-delimited with exactly the
header record sample, fastq_1, fastq_2, strandedness in that column order,
followed by one record per sample holding exactly that row's four fields, with
no index column. -/
theorem claim5_csv_format (m : List Row) :
    recordsOf (writeCsv m) =
      ["sample", "fastq_1", "fastq_2", "strandedness"] ::
        m.map (fun r => [r.sample, r.fastq_1, r.fastq_2, r.strandedness]) := by
  rw [recordsOf, parseCsv_writeCsv m, List.map_cons]
  have hrows : ∀ rs : List Row,
      (rs.map rowFieldsChars).map (fun r => r.map String.mk) =
        rs.map (fun r => [r.sample, r.fastq_1, r.fastq_2, r.strandedness]) := by
    intro rs
    induction rs with
    | nil => rfl
    | cons r rest ih =>
      rw [List.map_cons, List.map_cons, List.map_cons, ih]
      rfl
  rw [hrows]
  rfl

/-- Claim C6: serializing any manifest to CSV and parsing it back yields the
same ordered sequence of rows and the same column set. -/
theorem claim6_csv_roundtrip (m : List Row) :
    parseManifest (writeCsv m) = some (["sample", "fastq_1", "fastq_2", "strandedness"], m) :=
  parseManifest_writeCsv_general m

/-- Claim C7: the manifest-builder loop issues only browse (read) operations
against the registry, so the registry state after the build equals the state
before; no package is created, modified, or pushed by the build. -/
theorem claim7_build_readonly (batch : String) (ids : List String) (st : Registry) :
    List.foldl applyOp st (buildOps batch ids) = st ∧
    ∀ op ∈ buildOps batch ids, ∃ n, op = RegOp.browse n := by
  constructor
  · rw [buildOps]
    have hfold : ∀ l : List String, List.foldl applyOp st (l.map RegOp.browse) = st := by
      intro l
      induction l with
      | nil => rfl
      | cons x xs ih => rw [List.map_cons, List.foldl_cons]; exact ih
    exact hfold _
  · intro op hop
    rw [buildOps] at hop
    rcases List.mem_map.1 hop with ⟨n, _, hn⟩
    exact ⟨n, hn.symm⟩

/-- Claim C7 witness: on a concrete registry and listing the build trace
leaves the registry unchanged and its one operation is a browse. -/
theorem claim7_readonly_witness :
    List.foldl applyOp [("b_x", ⟨"CL", ["x_1.fastq.gz"]⟩)] (buildOps "b" ["b_x", "other"]) =
      [("b_x", ⟨"CL", ["x_1.fastq.gz"]⟩)] ∧
    ∃ n, RegOp.browse "b_x" = RegOp.browse n :=
  ⟨(claim7_build_readonly "b" ["b_x", "other"] [("b_x", ⟨"CL", ["x_1.fastq.gz"]⟩)]).1,
   (claim7_build_readonly "b" ["b_x", "other"] []).2 (RegOp.browse "b_x") (by decide)⟩

/-- Claim C8: the two substring tests are independent, not mutually exclusive:
a member filename containing both "_1.fastq.gz" and "_2.fastq.gz" is appended
to both the forward and the reverse list, and as a package's only member it
yields one fastq_1 entry and one fastq_2 entry from the single file. -/
theorem claim8_both_classifications (registry batch : String) (p : Pkg) (f : String)
    (hm : strContains p.name batch = true)
    (hf : f ∈ p.files)
    (h1 : strContains f "_1.fastq.gz" = true)
    (h2 : strContains f "_2.fastq.gz" = true) :
    fastqLoc registry batch p.name f ∈ fastq1OfPkg registry batch p ∧
    fastqLoc registry batch p.name f ∈ fastq2OfPkg registry batch p ∧
    (p.files = [f] → mkManifest registry batch [p] =
      some [⟨sampleName batch p, fastqLoc registry batch p.name f,
             fastqLoc registry batch p.name f, "auto"⟩]) := by
  refine ⟨?_, ?_, ?_⟩
  · exact List.mem_map_of_mem (fastqLoc registry batch p.name) (List.mem_filter.2 ⟨hf, h1⟩)
  · exact List.mem_map_of_mem (fastqLoc registry batch p.name) (List.mem_filter.2 ⟨hf, h2⟩)
  · intro hsingle
    have hfil1 : p.files.filter (fun g => strContains g "_1.fastq.gz") = [f] := by
      rw [hsingle]
      simp [h1]
    have hfil2 : p.files.filter (fun g => strContains g "_2.fastq.gz") = [f] := by
      rw [hsingle]
      simp [h2]
    have h := claim1_manifest_row_formula registry batch p f f hm hfil1 hfil2
    rw [h]
    rfl

/-- Claim C8 witness: the filename "s_1.fastq.gz_2.fastq.gz" lands in both
lists and fills both location columns of its package's row. -/
theorem claim8_both_witness :
    fastqLoc "s3://r" "b" "b_s" "s_1.fastq.gz_2.fastq.gz" ∈
      fastq1OfPkg "s3://r" "b" ⟨"b_s", "CL", ["s_1.fastq.gz_2.fastq.gz"]⟩ ∧
    fastqLoc "s3://r" "b" "b_s" "s_1.fastq.gz_2.fastq.gz" ∈
      fastq2OfPkg "s3://r" "b" ⟨"b_s", "CL", ["s_1.fastq.gz_2.fastq.gz"]⟩ ∧
    mkManifest "s3://r" "b" [⟨"b_s", "CL", ["s_1.fastq.gz_2.fastq.gz"]⟩] =
      some [⟨"CL__s", "s3://r/b_s/s_1.fastq.gz_2.fastq.gz",
             "s3://r/b_s/s_1.fastq.gz_2.fastq.gz", "auto"⟩] := by
  have h := claim8_both_classifications "s3://r" "b"
    ⟨"b_s", "CL", ["s_1.fastq.gz_2.fastq.gz"]⟩ "s_1.fastq.gz_2.fastq.gz"
    (by decide) (by decide) (by decide) (by decide)
  refine ⟨h.1, h.2.1, ?_⟩
  rw [h.2.2 rfl]
  decide

/-- Claim C9 counterexample: one matching package contributes zero forward
reads and another contributes two, so although packages contribute zero and
more-than-one matching filenames, the column lengths still agree and a
(misaligned) manifest is produced, contrary to the claim's "whenever". -/
theorem claim9_counterexample_balanced_mismatch :
    mkManifest "s3://r" "b"
      [⟨"b_x", "CL", ["x_2.fastq.gz"]⟩,
       ⟨"b_y", "CL", ["y1_1.fastq.gz", "y2_1.fastq.gz", "y_2.fastq.gz"]⟩] =
      some [⟨"CL__x", "s3://r/b_y/y1_1.fastq.gz", "s3://r/b_x/x_2.fastq.gz", "auto"⟩,
            ⟨"CL__y", "s3://r/b_y/y2_1.fastq.gz", "s3://r/b_y/y_2.fastq.gz", "auto"⟩] := by
  decide

/-- Claim C9 amended: if after the loop the forward or reverse location count
differs from the sample count, the DataFrame construction raises the
unequal-length error and no manifest is produced.  (Such a mismatch can arise
from a package with zero or multiple matching filenames, but not whenever one
occurs: deficits and surpluses across packages can cancel.) -/
theorem claim9_mismatch_no_manifest (registry batch : String) (pkgs : List Pkg)
    (h : (fastq1List registry batch pkgs).length ≠ (samplesList batch pkgs).length ∨
         (fastq2List registry batch pkgs).length ≠ (samplesList batch pkgs).length) :
    mkManifest registry batch pkgs = none := by
  simp only [mkManifest]
  rw [if_neg]
  intro hcond
  rcases h with h | h
  · exact h hcond.1.symm
  · exact h hcond.2.symm

/-- Claim C9 witness: a single matching package with no member files gives one
sample but zero forward locations, and no manifest is produced. -/
theorem claim9_mismatch_witness :
    (fastq1List "s3://r" "b" [⟨"b_x", "CL", []⟩]).length ≠
      (samplesList "b" [⟨"b_x", "CL", []⟩]).length ∧
    mkManifest "s3://r" "b" [⟨"b_x", "CL", []⟩] = none :=
  ⟨by decide,
   claim9_mismatch_no_manifest "s3://r" "b" [⟨"b_x", "CL", []⟩] (Or.inl (by decide))⟩

/-- Claim C10: manifest construction is deterministic: two runs over the same
registry state, the same listing in the same order, and the same registry and
batch strings produce identical manifests. -/
theorem claim10_deterministic (r1 b1 : String) (st1 : Registry) (ids1 : List String)
    (r2 b2 : String) (st2 : Registry) (ids2 : List String)
    (hr : r1 = r2) (hb : b1 = b2) (hst : st1 = st2) (hids : ids1 = ids2) :
    buildFromRegistry r1 b1 st1 ids1 = buildFromRegistry r2 b2 st2 ids2 := by
  subst hr
  subst hb
  subst hst
  subst hids
  rfl

/-- Claim C10 witness: two runs on a concrete registry and listing agree. -/
theorem claim10_deterministic_witness :
    buildFromRegistry "s3://r" "b" [("b_x", ⟨"CL", ["x_1.fastq.gz", "x_2.fastq.gz"]⟩)] ["b_x"] =
      buildFromRegistry "s3://r" "b" [("b_x", ⟨"CL", ["x_1.fastq.gz", "x_2.fastq.gz"]⟩)] ["b_x"] :=
  claim10_deterministic "s3://r" "b" [("b_x", ⟨"CL", ["x_1.fastq.gz", "x_2.fastq.gz"]⟩)] ["b_x"]
    "s3://r" "b" [("b_x", ⟨"CL", ["x_1.fastq.gz", "x_2.fastq.gz"]⟩)] ["b_x"] rfl rfl rfl rfl
